import Mathlib

/-!
Shallow embedding of rpep/duckdb-go-experiments (two Go programs:
src/cmd/statistics/statistics.go and src/cmd/basic/basic.go) and proofs
about the claims of the specification.

Modelling conventions:
* Go `float64` values are modelled as exact rationals (ℚ); `math.Sqrt`
  is modelled by `Real.sqrt` on the rational radicand the code passes to it.
* `math.Inf(-1)` / `math.Inf(1)`, the initial values of the running
  max/min, are modelled by `⊥ : WithBot ℚ` and `⊤ : WithTop ℚ`.
* `slices.Sort` (ascending sort of a float64 slice) is modelled by
  `List.insertionSort (· ≤ ·)`; the output of any correct ascending sort
  is the unique sorted permutation, so the choice of algorithm is immaterial.
* Database-driver calls are modelled by explicit environments that supply
  the outcome of each operation, and program runs produce traces/outcomes.
-/

namespace DuckDBGo

/-- `type Record struct { ID int; Value float64 }` from statistics.go. -/
structure Record where
  id : Int
  value : ℚ
deriving Repr, DecidableEq, Inhabited

/-- The scalar state threaded through the single `for i, r := range records`
loop of `StatisticsFromRecords`: running sum, running max (initial `-Inf`),
running min (initial `+Inf`), and the `values` slice written at index `i`
each iteration (modelled by appending in index order). -/
structure LoopAcc where
  sum : ℚ
  max : WithBot ℚ
  min : WithTop ℚ
  values : List ℚ
deriving DecidableEq

/-- One iteration of the loop body of `StatisticsFromRecords`:
`if r.Value > max`, `if r.Value < min`, `sum += r.Value`, `values[i] = r.Value`. -/
def loopStep (acc : LoopAcc) (r : Record) : LoopAcc :=
  { sum := acc.sum + r.value
    max := if (r.value : WithBot ℚ) > acc.max then (r.value : WithBot ℚ) else acc.max
    min := if (r.value : WithTop ℚ) < acc.min then (r.value : WithTop ℚ) else acc.min
    values := acc.values ++ [r.value] }

/-- Initial loop state: `sum := 0.0`, `max = math.Inf(-1)`, `min = math.Inf(1)`,
`values := make([]float64, len(records))` before any write. -/
def initAcc : LoopAcc := { sum := 0, max := ⊥, min := ⊤, values := [] }

/-- The whole first loop of `StatisticsFromRecords`. -/
def statsLoop (records : List Record) : LoopAcc :=
  records.foldl loopStep initAcc

/-- Model of `slices.Sort` on a float64 slice: ascending sort. -/
def sortValues (l : List ℚ) : List ℚ :=
  l.insertionSort (· ≤ ·)

/-- The five results of `StatisticsFromRecords`, except that the third
component `stddevSq` is the exact radicand `stddev / float64(len(records))`
that the code passes to `math.Sqrt` (the code reuses the variable `stddev`
for the accumulated sum of squared deviations). -/
structure Stats where
  mean : ℚ
  median : ℚ
  stddevSq : ℚ
  min : WithTop ℚ
  max : WithBot ℚ
deriving Repr, DecidableEq

/-- `StatisticsFromRecords` from statistics.go, up to the final `math.Sqrt`:
runs the accumulation loop, sorts the copied `values` slice, computes
`mean = sum / float64(len(records))`, accumulates
`stddev += (r.Value - mean) * (r.Value - mean)` over the records, divides by
the length (the radicand of the returned standard deviation), and takes the
median from the sorted slice by the even/odd length branch. -/
def statisticsFromRecordsCore (records : List Record) : Stats :=
  let acc := statsLoop records
  let values := sortValues acc.values
  let n : ℚ := (records.length : ℚ)
  let mean := acc.sum / n
  let ssd := records.foldl (fun s r => s + (r.value - mean) * (r.value - mean)) 0
  let median :=
    if values.length % 2 = 0 then
      (values.getD (values.length / 2 - 1) 0 + values.getD (values.length / 2) 0) / 2
    else
      values.getD (values.length / 2) 0
  { mean := mean
    median := median
    stddevSq := ssd / n
    min := acc.min
    max := acc.max }

/-- `StatisticsFromRecords` with the final `math.Sqrt` applied: the returned
tuple `(mean, median, stddev, min, max)`. -/
noncomputable def statisticsFromRecords (records : List Record) :
    ℚ × ℚ × ℝ × WithTop ℚ × WithBot ℚ :=
  let s := statisticsFromRecordsCore records
  (s.mean, s.median, Real.sqrt (s.stddevSq : ℝ), s.min, s.max)

/-- Guarded (Option-returning) embedding of `StatisticsFromRecords`: it fails
(returns `none`) exactly where the Go code would divide by zero
(`len(records) = 0`, used for both the mean and the variance) or index out of
bounds (`values[len/2-1]` and `values[len/2]` in the median branches). -/
def statisticsFromRecordsChecked (records : List Record) : Option Stats :=
  if records.length = 0 then none
  else
    let acc := statsLoop records
    let values := sortValues acc.values
    let n : ℚ := (records.length : ℚ)
    let mean := acc.sum / n
    let ssd := records.foldl (fun s r => s + (r.value - mean) * (r.value - mean)) 0
    let medianOpt : Option ℚ :=
      if values.length % 2 = 0 then
        match values[values.length / 2 - 1]?, values[values.length / 2]? with
        | some a, some b => some ((a + b) / 2)
        | _, _ => none
      else
        values[values.length / 2]?
    medianOpt.map fun median =>
      { mean := mean, median := median, stddevSq := ssd / n,
        min := acc.min, max := acc.max }

/-- The record written at index `i` by the generation loop of `main`:
`Record{ID: i, Value: float64(i)}`. -/
def mkRec (i : ℕ) : Record := ⟨(i : ℤ), (i : ℚ)⟩

/-- The record generator of `main` in statistics.go:
`records := make([]Record, N)` (a slice of `N` zero records) followed by the
loop `records[i] = Record{ID: i, Value: float64(i)}` for `i = 0..N-1`. -/
def genRecords (N : ℕ) : List Record :=
  (List.range N).foldl (fun acc i => acc.set i (mkRec i))
    (List.replicate N default)

/-! ### Memory-passing model of `StatisticsFromRecords` (frame property)

`GoMem` holds the two slices visible to `StatisticsFromRecords` — the input
slice `records` and the freshly allocated slice `values` — together with the
scalar variables.  Every write the Go function performs is an explicit field
update, so which memory the function mutates is visible in the model. -/

structure GoMem where
  records : List Record
  values : List ℚ
  sum : ℚ
  max : WithBot ℚ
  min : WithTop ℚ
  stddev : ℚ

/-- Body of the first loop as a memory update: reads `records[i]`, writes
the scalars and `values[i]`; `records` is not assigned. -/
def memLoopStep (σ : GoMem) (i : ℕ) : GoMem :=
  let r := σ.records.getD i default
  { σ with
    max := if (r.value : WithBot ℚ) > σ.max then (r.value : WithBot ℚ) else σ.max
    min := if (r.value : WithTop ℚ) < σ.min then (r.value : WithTop ℚ) else σ.min
    sum := σ.sum + r.value
    values := σ.values.set i r.value }

/-- Body of the second (stddev accumulation) loop: reads `records[i]` and the
scalar mean, writes only the scalar `stddev`. -/
def memStddevStep (mean : ℚ) (σ : GoMem) (i : ℕ) : GoMem :=
  let r := σ.records.getD i default
  { σ with stddev := σ.stddev + (r.value - mean) * (r.value - mean) }

/-- Memory at entry: the input slice and `values := make([]float64, len(records))`
(zero-initialised), `sum := 0.0`, `max := -Inf`, `min := +Inf`. -/
def memInit (records : List Record) : GoMem :=
  { records := records, values := List.replicate records.length 0,
    sum := 0, max := ⊥, min := ⊤, stddev := 0 }

/-- Whole-function memory-passing run of `StatisticsFromRecords`: first loop,
in-place `slices.Sort(values)`, second loop; returns the final memory (the
returned scalars are readable from it). -/
def runStatisticsMem (records : List Record) : GoMem :=
  let σ₁ := (List.range records.length).foldl memLoopStep (memInit records)
  let σ₂ := { σ₁ with values := sortValues σ₁.values }
  let mean := σ₂.sum / (records.length : ℚ)
  (List.range records.length).foldl (memStddevStep mean) σ₂

/-! ### Trace model of `StandardInsert`

`StandardInsert` issues `BEGIN TRANSACTION`, one parameterized
`INSERT INTO records (value) VALUES (?)` per record in slice order, and
`COMMIT`, each via `db.Exec`, returning the first error and stopping there.
The driver is modelled by an environment giving the outcome of the i-th
issued command (`none` = success); a run produces the first error (if any)
and the trace of commands issued. -/

/-- Alphabet of commands `StandardInsert` can issue. -/
inductive InsCmd where
  | beginTx : InsCmd
  | insert : ℚ → InsCmd
  | commitTx : InsCmd
deriving Repr, DecidableEq

/-- The `for _, record := range records` loop of `StandardInsert`, starting at
issue position `pos`: issues one insert per record until the first failure. -/
def insertLoop (env : ℕ → Option String) : List Record → ℕ → Option String × List InsCmd
  | [], _ => (none, [])
  | r :: rs, pos =>
    match env pos with
    | some e => (some e, [InsCmd.insert r.value])
    | none =>
      let rest := insertLoop env rs (pos + 1)
      (rest.1, InsCmd.insert r.value :: rest.2)

/-- `StandardInsert` from statistics.go: `BEGIN TRANSACTION` (position 0),
the insert loop (positions 1..len), `COMMIT` (position len+1); each failing
`db.Exec` makes the function return that error at once. -/
def standardInsert (records : List Record) (env : ℕ → Option String) :
    Option String × List InsCmd :=
  match env 0 with
  | some e => (some e, [InsCmd.beginTx])
  | none =>
    let loop := insertLoop env records 1
    match loop.1 with
    | some e => (some e, InsCmd.beginTx :: loop.2)
    | none =>
      match env (records.length + 1) with
      | some e => (some e, InsCmd.beginTx :: loop.2 ++ [InsCmd.commitTx])
      | none => (none, InsCmd.beginTx :: loop.2 ++ [InsCmd.commitTx])

/-- The full command sequence `StandardInsert` issues when nothing fails. -/
def fullTrace (records : List Record) : List InsCmd :=
  InsCmd.beginTx :: records.map (fun r => InsCmd.insert r.value) ++ [InsCmd.commitTx]

/-! ### Model of the basic demo (basic.go)

The demo opens a connection discarding the error (`db, _ := sql.Open`),
creates table `t` (error checked: print + `os.Exit(1)`), runs
`db.Exec("INSERT INTO t VALUES (%s)", i)` for `i = 0..9` (error checked:
print + `os.Exit(1)`), then `rows, _ := db.Query("SELECT * FROM t")`
discarding the error, and scans/prints each row discarding the scan error.

Driver semantics (modelled from the DuckDB go driver: positional arguments
bind to `?` placeholders of the prepared statement): executing a statement
whose placeholder count differs from the number of bound arguments fails
before any injected driver outcome is consulted.  `%s` is not a placeholder. -/

/-- Number of `?` parameter placeholders in a SQL text. -/
def sqlPlaceholders (s : String) : ℕ := s.toList.count '?'

/-- Error produced when the bound argument count does not match the
statement's placeholder count. -/
def bindMismatchErr : String := "prepared statement parameter count mismatch"

/-- Driver-level `db.Exec`: placeholder/argument arity is checked first,
then the environment-injected outcome applies. -/
def duckExec (sql : String) (nargs : ℕ) (driverErr : Option String) : Option String :=
  if sqlPlaceholders sql = nargs then driverErr else some bindMismatchErr

/-- The SQL text of the create statement in basic.go. -/
def basicCreateSQL : String := "CREATE TABLE t (i INTEGER)"

/-- The SQL text of the insert statement in basic.go (note the `%s`). -/
def basicInsertSQL : String := "INSERT INTO t VALUES (%s)"

/-- Injected outcomes of the driver operations the basic demo performs. -/
structure BasicEnv where
  openErr : Option String
  createErr : Option String
  insertErr : ℕ → Option String
  queryErr : Option String
  scanErr : ℕ → Option String

/-- Observable outcome of a run of the basic demo. -/
structure BasicOutcome where
  exitCode : ℕ
  printedValues : List ℤ
  printedErrors : List String
  ignoredErrors : List String
  trace : List String
deriving Repr, DecidableEq

/-- The `for i := range 10` insert loop of basic.go over the given indices:
returns how many inserts were attempted and the first error, if any. -/
def basicInsertLoop (env : BasicEnv) : List ℕ → ℕ × Option String
  | [] => (0, none)
  | i :: rest =>
    match duckExec basicInsertSQL 1 (env.insertErr i) with
    | some e => (1, some e)
    | none =>
      let r := basicInsertLoop env rest
      (r.1 + 1, r.2)

/-- `main` of basic.go.  The `sql.Open` error is discarded; a failing `Exec`
prints its error and exits with status 1; the `db.Query` error is discarded
(iterating the nil result set then crashes the process, modelled as exit
code 2 with nothing printed); each `rows.Scan` error is discarded and the
zero value of `i` is printed for that row. -/
def basicMain (env : BasicEnv) : BasicOutcome :=
  let ignored₀ := env.openErr.toList
  match duckExec basicCreateSQL 0 env.createErr with
  | some e =>
    { exitCode := 1, printedValues := [], printedErrors := [e],
      ignoredErrors := ignored₀, trace := ["open", "exec CREATE"] }
  | none =>
    let ins := basicInsertLoop env (List.range 10)
    match ins.2 with
    | some e =>
      { exitCode := 1, printedValues := [], printedErrors := [e],
        ignoredErrors := ignored₀,
        trace := "open" :: "exec CREATE" :: List.replicate ins.1 "exec INSERT" }
    | none =>
      match env.queryErr with
      | some e =>
        { exitCode := 2, printedValues := [], printedErrors := [],
          ignoredErrors := ignored₀ ++ [e],
          trace := "open" :: "exec CREATE" ::
            (List.replicate ins.1 "exec INSERT" ++ ["query"]) }
      | none =>
        let printed := (List.range 10).map fun i =>
          match env.scanErr i with
          | some _ => (0 : ℤ)
          | none => (i : ℤ)
        let scanIgnored := (List.range 10).filterMap env.scanErr
        { exitCode := 0, printedValues := printed, printedErrors := [],
          ignoredErrors := ignored₀ ++ scanIgnored,
          trace := "open" :: "exec CREATE" ::
            (List.replicate ins.1 "exec INSERT" ++ "query" ::
              List.replicate 10 "scan") }

/-! ### Model of `StatisticsFromDB` (statistics.go)

The query is
`SELECT AVG(value), MEDIAN(value), STDDEV_POP(value), MIN(value), MAX(value)
FROM records`; the single returned row is scanned with
`rows.Scan(&mean, &median, &stddev, &max, &min)` — the fourth column (MIN)
lands in the variable `max` and the fifth column (MAX) in the variable
`min` — and the function returns `(mean, median, stddev, min, max)`. -/

/-- One row of the aggregate query, fields in column order. -/
structure AggRow where
  avg : ℚ
  med : ℚ
  stddevPop : ℚ
  colMin : ℚ
  colMax : ℚ
deriving Repr, DecidableEq

/-- The scan-and-return tail of `StatisticsFromDB` applied to the row. -/
def statisticsFromDBScan (row : AggRow) : ℚ × ℚ × ℚ × ℚ × ℚ :=
  let mean := row.avg
  let median := row.med
  let stddev := row.stddevPop
  let max := row.colMin
  let min := row.colMax
  (mean, median, stddev, min, max)

/-- Modelled DuckDB aggregate semantics over a non-empty column of exact
values: AVG is the arithmetic mean, MEDIAN the interpolated median of the
sorted column, MIN/MAX the extrema; STDDEV_POP is supplied as an exact
rational argument, for inputs whose population standard deviation is
rational. -/
def duckAggRow (l : List ℚ) (stddevPop : ℚ) : AggRow :=
  let s := sortValues l
  { avg := l.sum / (l.length : ℚ)
    med := if s.length % 2 = 0 then
        (s.getD (s.length / 2 - 1) 0 + s.getD (s.length / 2) 0) / 2
      else s.getD (s.length / 2) 0
    stddevPop := stddevPop
    colMin := s.headD 0
    colMax := s.getLastD 0 }

/-- Injected outcomes for the driver operations of `StatisticsFromDB`. -/
structure StatsDBEnv where
  queryErr : Option String
  hasRow : Bool
  scanErr : Option String
  row : AggRow
deriving Repr, DecidableEq

/-- Control flow of `StatisticsFromDB`: a query error, an empty result set
(`!rows.Next()`), or a scan error each reach `log.Fatal`, modelled as
`Except.error` (the logged message); otherwise the scanned tuple is
returned. -/
def statisticsFromDBRun (env : StatsDBEnv) : Except String (ℚ × ℚ × ℚ × ℚ × ℚ) :=
  match env.queryErr with
  | some e => Except.error e
  | none =>
    if env.hasRow then
      match env.scanErr with
      | some e => Except.error e
      | none => Except.ok (statisticsFromDBScan env.row)
    else Except.error "No rows returned"

/-! ### Lemmas about the accumulation loop -/

theorem foldl_loopStep_values (l : List Record) (a : LoopAcc) :
    (l.foldl loopStep a).values = a.values ++ l.map (fun r => r.value) := by
  induction l generalizing a with
  | nil => simp
  | cons r rs ih => simp [loopStep, ih]

theorem statsLoop_values (l : List Record) :
    (statsLoop l).values = l.map (fun r => r.value) := by
  simp [statsLoop, foldl_loopStep_values, initAcc]

theorem foldl_loopStep_sum (l : List Record) (a : LoopAcc) :
    (l.foldl loopStep a).sum = a.sum + (l.map (fun r => r.value)).sum := by
  induction l generalizing a with
  | nil => simp
  | cons r rs ih => rw [List.foldl_cons, ih]; simp [loopStep]; ring

theorem statsLoop_sum (l : List Record) :
    (statsLoop l).sum = (l.map (fun r => r.value)).sum := by
  simp [statsLoop, foldl_loopStep_sum, initAcc]

theorem foldl_add_sq (m : ℚ) (l : List Record) (a : ℚ) :
    l.foldl (fun s r => s + (r.value - m) * (r.value - m)) a
      = a + (l.map (fun r => (r.value - m) * (r.value - m))).sum := by
  induction l generalizing a with
  | nil => simp
  | cons r rs ih => rw [List.foldl_cons, ih]; simp; ring

theorem ite_gt_max (m v : WithBot ℚ) : (if v > m then v else m) = max m v := by
  rcases lt_or_ge m v with h | h
  · simp [h, max_eq_right h.le]
  · simp [not_lt.mpr h, max_eq_left h]

theorem ite_lt_min (m v : WithTop ℚ) : (if v < m then v else m) = min m v := by
  rcases lt_or_ge v m with h | h
  · simp [h, min_eq_right h.le]
  · simp [not_lt.mpr h, min_eq_left h]

theorem foldl_loopStep_max (l : List Record) (a : LoopAcc) :
    (l.foldl loopStep a).max
      = l.foldl (fun m r => max m (r.value : WithBot ℚ)) a.max := by
  induction l generalizing a with
  | nil => simp
  | cons r rs ih => rw [List.foldl_cons, ih]; simp [loopStep, ite_gt_max]

theorem foldl_loopStep_min (l : List Record) (a : LoopAcc) :
    (l.foldl loopStep a).min
      = l.foldl (fun m r => min m (r.value : WithTop ℚ)) a.min := by
  induction l generalizing a with
  | nil => simp
  | cons r rs ih => rw [List.foldl_cons, ih]; simp [loopStep, ite_lt_min]


/-! ### Claim theorems: in-memory statistics -/

/-- C6: for every non-empty list of records, the mean returned by
`StatisticsFromRecords` (first component) equals the sum of the values
divided by their count. -/
theorem claim_C6 (records : List Record) (_h : records ≠ []) :
    (statisticsFromRecords records).1
      = (records.map (fun r => r.value)).sum / (records.length : ℚ) := by
  simp [statisticsFromRecords, statisticsFromRecordsCore, statsLoop_sum]

theorem claim_C6_witness :
    ([⟨0, 1⟩, ⟨1, 2⟩] : List Record) ≠ [] ∧
    (statisticsFromRecords [⟨0, 1⟩, ⟨1, 2⟩]).1
      = (([⟨0, 1⟩, ⟨1, 2⟩] : List Record).map (fun r => r.value)).sum
          / (([⟨0, 1⟩, ⟨1, 2⟩] : List Record).length : ℚ) :=
  ⟨by decide, claim_C6 [⟨0, 1⟩, ⟨1, 2⟩] (by decide)⟩

/-- C4: for every non-empty list of records, the median returned by
`StatisticsFromRecords` (second component) is, on the ascending-sorted values
(any sorted permutation `s` of the values), the average of the two middle
entries for even length and the middle entry for odd length; in particular it
is 3 on values 1..5 and 5/2 on values 1..4. -/
theorem claim_C4 :
    (∀ (records : List Record) (s : List ℚ),
        records ≠ [] →
        s.Perm (records.map (fun r => r.value)) →
        s.Sorted (· ≤ ·) →
        (statisticsFromRecords records).2.1 =
          if records.length % 2 = 0 then
            (s.getD (records.length / 2 - 1) 0 + s.getD (records.length / 2) 0) / 2
          else s.getD (records.length / 2) 0) ∧
    (statisticsFromRecords [⟨0, 1⟩, ⟨1, 2⟩, ⟨2, 3⟩, ⟨3, 4⟩, ⟨4, 5⟩]).2.1 = 3 ∧
    (statisticsFromRecords [⟨0, 1⟩, ⟨1, 2⟩, ⟨2, 3⟩, ⟨3, 4⟩]).2.1 = 5 / 2 := by
  refine ⟨?_, ?_, ?_⟩
  · intro records s _h hperm hsort
    have hs : s = sortValues (records.map (fun r => r.value)) := by
      apply List.eq_of_perm_of_sorted (r := (· ≤ ·))
      · exact hperm.trans (List.perm_insertionSort _ _).symm
      · exact hsort
      · exact List.sorted_insertionSort _ _
    have hlen : (sortValues ((statsLoop records).values)).length = records.length := by
      simp [sortValues, List.length_insertionSort, statsLoop_values]
    simp only [statisticsFromRecords, statisticsFromRecordsCore]
    rw [statsLoop_values] at hlen ⊢
    rw [hlen, hs]
  · norm_num [statisticsFromRecords, statisticsFromRecordsCore, statsLoop, loopStep,
      initAcc, sortValues, List.insertionSort, List.orderedInsert]
  · norm_num [statisticsFromRecords, statisticsFromRecordsCore, statsLoop, loopStep,
      initAcc, sortValues, List.insertionSort, List.orderedInsert]


theorem claim_C4_witness :
    ([⟨0, 1⟩, ⟨1, 2⟩, ⟨2, 3⟩, ⟨3, 4⟩, ⟨4, 5⟩] : List Record) ≠ [] ∧
    ([1, 2, 3, 4, 5] : List ℚ).Perm
      (([⟨0, 1⟩, ⟨1, 2⟩, ⟨2, 3⟩, ⟨3, 4⟩, ⟨4, 5⟩] : List Record).map (fun r => r.value)) ∧
    ([1, 2, 3, 4, 5] : List ℚ).Sorted (· ≤ ·) ∧
    (statisticsFromRecords [⟨0, 1⟩, ⟨1, 2⟩, ⟨2, 3⟩, ⟨3, 4⟩, ⟨4, 5⟩]).2.1 =
      if ([⟨0, 1⟩, ⟨1, 2⟩, ⟨2, 3⟩, ⟨3, 4⟩, ⟨4, 5⟩] : List Record).length % 2 = 0 then
        (([1, 2, 3, 4, 5] : List ℚ).getD
            (([⟨0, 1⟩, ⟨1, 2⟩, ⟨2, 3⟩, ⟨3, 4⟩, ⟨4, 5⟩] : List Record).length / 2 - 1) 0
          + ([1, 2, 3, 4, 5] : List ℚ).getD
              (([⟨0, 1⟩, ⟨1, 2⟩, ⟨2, 3⟩, ⟨3, 4⟩, ⟨4, 5⟩] : List Record).length / 2) 0) / 2
      else
        ([1, 2, 3, 4, 5] : List ℚ).getD
          (([⟨0, 1⟩, ⟨1, 2⟩, ⟨2, 3⟩, ⟨3, 4⟩, ⟨4, 5⟩] : List Record).length / 2) 0 :=
  ⟨by decide, by decide, by decide,
    claim_C4.1 [⟨0, 1⟩, ⟨1, 2⟩, ⟨2, 3⟩, ⟨3, 4⟩, ⟨4, 5⟩] [1, 2, 3, 4, 5]
      (by decide) (by decide) (by decide)⟩

/-- C5: for every non-empty list of records, the standard deviation returned
by `StatisticsFromRecords` (third component) is the square root of the sum of
squared deviations from the mean divided by N (population form); in
particular on values 1..4 it equals sqrt(5/4) = sqrt(1.25). -/
theorem claim_C5 :
    (∀ records : List Record, records ≠ [] →
        (statisticsFromRecords records).2.2.1 =
          Real.sqrt
            ((((records.map (fun r =>
                  (r.value - (statisticsFromRecordsCore records).mean) *
                    (r.value - (statisticsFromRecordsCore records).mean))).sum
                / (records.length : ℚ)) : ℚ) : ℝ)) ∧
    (statisticsFromRecords [⟨0, 1⟩, ⟨1, 2⟩, ⟨2, 3⟩, ⟨3, 4⟩]).2.2.1
      = Real.sqrt ((5 : ℝ) / 4) := by
  constructor
  · intro records _h
    simp only [statisticsFromRecords, statisticsFromRecordsCore]
    rw [foldl_add_sq]
    norm_num
  · have h54 : (statisticsFromRecordsCore [⟨0, 1⟩, ⟨1, 2⟩, ⟨2, 3⟩, ⟨3, 4⟩]).stddevSq
        = 5 / 4 := by
      norm_num [statisticsFromRecordsCore, statsLoop, loopStep, initAcc, sortValues,
        List.insertionSort, List.orderedInsert]
    simp only [statisticsFromRecords]
    rw [h54]
    norm_num


theorem claim_C5_witness :
    ([⟨0, 1⟩, ⟨1, 2⟩] : List Record) ≠ [] ∧
    (statisticsFromRecords [⟨0, 1⟩, ⟨1, 2⟩]).2.2.1 =
      Real.sqrt
        (((([⟨0, 1⟩, ⟨1, 2⟩] : List Record).map (fun r =>
              (r.value - (statisticsFromRecordsCore [⟨0, 1⟩, ⟨1, 2⟩]).mean) *
                (r.value - (statisticsFromRecordsCore [⟨0, 1⟩, ⟨1, 2⟩]).mean))).sum
            / (([⟨0, 1⟩, ⟨1, 2⟩] : List Record).length : ℚ) : ℚ) : ℝ) :=
  ⟨by decide, claim_C5.1 [⟨0, 1⟩, ⟨1, 2⟩] (by decide)⟩

theorem foldl_set_getElem? (mk : ℕ → Record) (l : List ℕ) (init : List Record) (j : ℕ) :
    (l.foldl (fun acc i => acc.set i (mk i)) init)[j]? =
      if j ∈ l ∧ j < init.length then some (mk j) else init[j]? := by
  induction l generalizing init with
  | nil => simp
  | cons i rest ih =>
    rw [List.foldl_cons, ih, List.length_set]
    by_cases hjl : j ∈ rest
    · by_cases hlen : j < init.length
      · simp [hjl, hlen]
      · rw [if_neg (by tauto), if_neg (by tauto), List.getElem?_set]
        rw [List.getElem?_eq_none (by omega)]
        by_cases hij : i = j
        · rw [if_pos hij, if_neg (by omega)]
        · rw [if_neg hij]
    · rw [if_neg (by tauto)]
      by_cases hij : i = j
      · subst hij
        by_cases hlen : i < init.length
        · rw [if_pos (by simp [hlen]), List.getElem?_set_self hlen]
        · rw [if_neg (by tauto), List.getElem?_set, if_pos rfl, if_neg hlen]
          exact (List.getElem?_eq_none (by omega)).symm
      · rw [List.getElem?_set_ne hij]
        rw [if_neg (by rintro ⟨hmem, -⟩; rcases List.mem_cons.mp hmem with h1 | h1 <;> tauto)]

theorem genRecords_eq (N : ℕ) :
    genRecords N = (List.range N).map mkRec := by
  apply List.ext_getElem?
  intro j
  rw [genRecords, foldl_set_getElem?, List.length_replicate]
  by_cases hj : j < N
  · rw [if_pos ⟨List.mem_range.mpr hj, hj⟩, List.getElem?_map, List.getElem?_range hj]
    rfl
  · rw [if_neg (by rintro ⟨hmem, -⟩; exact hj (List.mem_range.mp hmem)),
      List.getElem?_map,
      List.getElem?_eq_none (by simp only [List.length_range, List.length_replicate]; omega),
      List.getElem?_eq_none (by simp only [List.length_range, List.length_replicate]; omega)]
    rfl

theorem statsLoop_append (l : List Record) (r : Record) :
    statsLoop (l ++ [r]) = loopStep (statsLoop l) r := by
  simp [statsLoop, List.foldl_append]

theorem statsLoop_max_range (N : ℕ) (h : 1 ≤ N) :
    (statsLoop ((List.range N).map mkRec)).max = (((N - 1 : ℕ) : ℚ) : WithBot ℚ) := by
  induction N with
  | zero => omega
  | succ n ih =>
    rw [List.range_succ]
    simp only [List.map_append, List.map_cons, List.map_nil]
    rw [statsLoop_append]
    rcases Nat.eq_zero_or_pos n with hn | hn
    · subst hn
      simp [statsLoop, initAcc, loopStep, mkRec]
    · rw [loopStep]
      simp only [ih hn]
      rw [mkRec, if_pos ?hlt]
      case hlt =>
        refine WithBot.coe_lt_coe.mpr ?_
        exact_mod_cast Nat.cast_lt.mpr (by omega)
      simp

theorem statsLoop_min_range (N : ℕ) (h : 1 ≤ N) :
    (statsLoop ((List.range N).map mkRec)).min = ((0 : ℚ) : WithTop ℚ) := by
  induction N with
  | zero => omega
  | succ n ih =>
    rw [List.range_succ]
    simp only [List.map_append, List.map_cons, List.map_nil]
    rw [statsLoop_append]
    rcases Nat.eq_zero_or_pos n with hn | hn
    · subst hn
      simp [statsLoop, initAcc, loopStep, mkRec]
    · rw [loopStep]
      simp only [ih hn]
      rw [mkRec, if_neg ?hnlt]
      case hnlt =>
        refine (WithTop.coe_lt_coe.not.mpr ?_)
        exact (by exact_mod_cast Nat.cast_nonneg n : (0:ℚ) ≤ (n:ℚ)).not_lt


/-- C7: for every N >= 1, the record generator fills index i with
`Record{ID: i, Value: float64(i)}` for i = 0..N-1, and
`StatisticsFromRecords` on the generated records returns min = 0
(fourth component) and max = N-1 (fifth component). -/
theorem claim_C7 (N : ℕ) (h : 1 ≤ N) :
    genRecords N = (List.range N).map mkRec ∧
    (statisticsFromRecords (genRecords N)).2.2.2.1 = ((0 : ℚ) : WithTop ℚ) ∧
    (statisticsFromRecords (genRecords N)).2.2.2.2 = (((N - 1 : ℕ) : ℚ) : WithBot ℚ) := by
  refine ⟨genRecords_eq N, ?_, ?_⟩
  · simp only [statisticsFromRecords, statisticsFromRecordsCore, genRecords_eq]
    exact statsLoop_min_range N h
  · simp only [statisticsFromRecords, statisticsFromRecordsCore, genRecords_eq]
    exact statsLoop_max_range N h

theorem claim_C7_witness :
    1 ≤ 3 ∧
    (genRecords 3 = (List.range 3).map mkRec ∧
      (statisticsFromRecords (genRecords 3)).2.2.2.1 = ((0 : ℚ) : WithTop ℚ) ∧
      (statisticsFromRecords (genRecords 3)).2.2.2.2 = (((3 - 1 : ℕ) : ℚ) : WithBot ℚ)) :=
  ⟨by decide, claim_C7 3 (by decide)⟩

/-- C8: for every non-empty list of records, the guarded (Option-returning)
embedding of `StatisticsFromRecords` succeeds — every slice index of the
median branch is in bounds and every division has a non-zero divisor — and
produces exactly the unguarded result. -/
theorem claim_C8 (records : List Record) (h : records ≠ []) :
    statisticsFromRecordsChecked records = some (statisticsFromRecordsCore records) := by
  have hpos : 0 < records.length := List.length_pos.mpr h
  have hL : (sortValues (statsLoop records).values).length = records.length := by
    simp [sortValues, List.length_insertionSort, statsLoop_values]
  simp only [statisticsFromRecordsChecked, statisticsFromRecordsCore]
  rw [if_neg (by omega)]
  by_cases hpar : (sortValues (statsLoop records).values).length % 2 = 0
  · have hi1 : (sortValues (statsLoop records).values).length / 2 - 1
        < (sortValues (statsLoop records).values).length := by omega
    have hi2 : (sortValues (statsLoop records).values).length / 2
        < (sortValues (statsLoop records).values).length :=
      Nat.div_lt_self (by omega) (by norm_num)
    rw [if_pos hpar, if_pos hpar, List.getElem?_eq_getElem hi1,
      List.getElem?_eq_getElem hi2, List.getD_eq_getElem _ _ hi1,
      List.getD_eq_getElem _ _ hi2]
    rfl
  · have hi : (sortValues (statsLoop records).values).length / 2
        < (sortValues (statsLoop records).values).length :=
      Nat.div_lt_self (by omega) (by norm_num)
    rw [if_neg hpar, if_neg hpar, List.getElem?_eq_getElem hi,
      List.getD_eq_getElem _ _ hi]
    rfl

theorem claim_C8_witness :
    ([⟨0, 1⟩, ⟨1, 2⟩] : List Record) ≠ [] ∧
    statisticsFromRecordsChecked [⟨0, 1⟩, ⟨1, 2⟩]
      = some (statisticsFromRecordsCore [⟨0, 1⟩, ⟨1, 2⟩]) :=
  ⟨by decide, claim_C8 [⟨0, 1⟩, ⟨1, 2⟩] (by decide)⟩

theorem foldl_memLoopStep_records (l : List ℕ) (σ : GoMem) :
    (l.foldl memLoopStep σ).records = σ.records := by
  induction l generalizing σ with
  | nil => rfl
  | cons i rest ih => rw [List.foldl_cons, ih]; rfl

theorem foldl_memStddevStep_records (m : ℚ) (l : List ℕ) (σ : GoMem) :
    (l.foldl (memStddevStep m) σ).records = σ.records := by
  induction l generalizing σ with
  | nil => rfl
  | cons i rest ih => rw [List.foldl_cons, ih]; rfl

/-- C10: the memory-passing run of `StatisticsFromRecords` leaves the input
`records` slice unchanged: every write of the function targets the freshly
allocated `values` slice or a scalar, never the input. -/
theorem claim_C10 (records : List Record) :
    (runStatisticsMem records).records = records := by
  simp only [runStatisticsMem]
  rw [foldl_memStddevStep_records]
  exact foldl_memLoopStep_records _ _


theorem insertLoop_ok (env : ℕ → Option String) (records : List Record) (pos : ℕ)
    (h : ∀ i, pos ≤ i → i < pos + records.length → env i = none) :
    insertLoop env records pos
      = (none, records.map (fun r => InsCmd.insert r.value)) := by
  induction records generalizing pos with
  | nil => rfl
  | cons r rs ih =>
    rw [insertLoop, h pos le_rfl (by simp)]
    rw [ih (pos + 1) (fun i h1 h2 => h i (by omega) (by simp at h2 ⊢; omega))]
    rfl

theorem insertLoop_fail (env : ℕ → Option String) (records : List Record) (pos k : ℕ)
    (e : String) (hk : k < records.length) (he : env (pos + k) = some e)
    (hbefore : ∀ i, pos ≤ i → i < pos + k → env i = none) :
    insertLoop env records pos
      = (some e, (records.take (k + 1)).map (fun r => InsCmd.insert r.value)) := by
  induction records generalizing pos k with
  | nil => simp at hk
  | cons r rs ih =>
    rcases Nat.eq_zero_or_pos k with hzero | hpos
    · subst hzero
      rw [insertLoop]
      rw [show pos + 0 = pos from rfl] at he
      rw [he]
      rfl
    · rw [insertLoop, hbefore pos le_rfl (by omega)]
      rw [ih (pos + 1) (k - 1) (by simp at hk; omega)
        (by rw [show pos + 1 + (k - 1) = pos + k from by omega]; exact he)
        (fun i h1 h2 => hbefore i (by omega) (by omega))]
      rw [show k - 1 + 1 = k from by omega]
      rfl

/-- C9: for every record list and environment of command outcomes,
`StandardInsert` begins a transaction, issues exactly one parameterized
insert per record in list order, and commits; the first failing command makes
it return that error at once — a failing begin issues nothing further, a
failure at the k-th insert leaves exactly the begin plus the first k+1
inserts issued (no commit, no retry), and a failing commit returns its error
after the full trace. -/
theorem claim_C9 (records : List Record) (env : ℕ → Option String) :
    ((∀ i, i ≤ records.length + 1 → env i = none) →
      standardInsert records env = (none, fullTrace records)) ∧
    (∀ e, env 0 = some e →
      standardInsert records env = (some e, [InsCmd.beginTx])) ∧
    (∀ k e, k < records.length → env (k + 1) = some e →
      (∀ i, i ≤ k → env i = none) →
      standardInsert records env
        = (some e, InsCmd.beginTx ::
            (records.take (k + 1)).map (fun r => InsCmd.insert r.value))) ∧
    (∀ e, (∀ i, i ≤ records.length → env i = none) →
      env (records.length + 1) = some e →
      standardInsert records env = (some e, fullTrace records)) := by
  refine ⟨?_, ?_, ?_, ?_⟩
  · intro h
    rw [standardInsert, h 0 (by omega)]
    rw [insertLoop_ok env records 1 (fun i h1 h2 => h i (by omega))]
    rw [h (records.length + 1) le_rfl]
    rfl
  · intro e he
    rw [standardInsert, he]
  · intro k e hk he hbefore
    rw [standardInsert, hbefore 0 (by omega)]
    rw [insertLoop_fail env records 1 k e hk (by rw [Nat.add_comm]; exact he)
      (fun i h1 h2 => hbefore i (by omega))]
  · intro e h he
    rw [standardInsert, h 0 (by omega)]
    rw [insertLoop_ok env records 1 (fun i h1 h2 => h i (by omega))]
    rw [he]
    rfl

theorem claim_C9_witness :
    standardInsert [⟨0, 7⟩] (fun _ => none) = (none, fullTrace [⟨0, 7⟩]) ∧
    standardInsert [⟨0, 7⟩, ⟨1, 8⟩] (fun i => if i = 2 then some "boom" else none)
      = (some "boom",
          InsCmd.beginTx ::
            (([⟨0, 7⟩, ⟨1, 8⟩] : List Record).take 2).map
              (fun r => InsCmd.insert r.value)) :=
  ⟨(claim_C9 [⟨0, 7⟩] (fun _ => none)).1 (fun i _ => rfl),
    (claim_C9 [⟨0, 7⟩, ⟨1, 8⟩] (fun i => if i = 2 then some "boom" else none)).2.2.1 1 "boom"
      (by decide) rfl (fun i hi => by interval_cases i <;> rfl)⟩

/-! ### Claim theorems: program runs against the database driver -/

theorem duckExec_create (x : Option String) : duckExec basicCreateSQL 0 x = x := by
  rw [duckExec, if_pos (by decide)]

theorem duckExec_insert (x : Option String) :
    duckExec basicInsertSQL 1 x = some bindMismatchErr := by
  rw [duckExec, if_neg (by decide)]

theorem basicMain_createFail (env : BasicEnv) (e : String)
    (h : env.createErr = some e) :
    basicMain env
      = { exitCode := 1, printedValues := [], printedErrors := [e],
          ignoredErrors := env.openErr.toList,
          trace := ["open", "exec CREATE"] } := by
  rw [basicMain]
  rw [duckExec_create, h]

theorem basicMain_createOk (env : BasicEnv) (h : env.createErr = none) :
    basicMain env
      = { exitCode := 1, printedValues := [],
          printedErrors := [bindMismatchErr],
          ignoredErrors := env.openErr.toList,
          trace := ["open", "exec CREATE", "exec INSERT"] } := by
  have h10 : List.range 10 = [0, 1, 2, 3, 4, 5, 6, 7, 8, 9] := by decide
  rw [basicMain, duckExec_create, h, h10]
  simp [basicInsertLoop, duckExec_insert]

/-- C2 (code defect): with no injected driver failures, the basic demo exits
with status 1 after attempting only the first insert — the statement
`INSERT INTO t VALUES (%s)` contains no parameter placeholder for its one
bound argument, so the insert fails — and no values are printed at all. -/
theorem claim_C2 :
    basicMain ⟨none, none, fun _ => none, none, fun _ => none⟩
      = { exitCode := 1, printedValues := [], printedErrors := [bindMismatchErr],
          ignoredErrors := [], trace := ["open", "exec CREATE", "exec INSERT"] } :=
  basicMain_createOk ⟨none, none, fun _ => none, none, fun _ => none⟩ rfl

/-- C3, refuted as stated: when `sql.Open` fails and no other outcome is
injected, the basic demo neither logs the open error nor terminates at it —
the error is discarded and execution continues to the create statement — so
not every database-operation failure is logged and immediately fatal. -/
theorem claim_C3_counterexample :
    "open failed" ∉
      (basicMain ⟨some "open failed", none, fun _ => none, none,
        fun _ => none⟩).printedErrors ∧
    "open failed" ∈
      (basicMain ⟨some "open failed", none, fun _ => none, none,
        fun _ => none⟩).ignoredErrors ∧
    "exec CREATE" ∈
      (basicMain ⟨some "open failed", none, fun _ => none, none,
        fun _ => none⟩).trace := by
  rw [basicMain_createOk _ rfl]
  refine ⟨by decide, by decide, by decide⟩

/-- C3 amended: in the statistics program every failure surfaced to
`StatisticsFromDB` — query error, empty result set, scan error — causes a
fatal logged termination with that error; in the basic demo a failing `Exec`
prints its error and exits with status 1 at once, but the `sql.Open` error is
discarded: it is never printed through the error path and execution continues
past it to the create statement. -/
theorem claim_C3_amended :
    (∀ env : StatsDBEnv,
      (∀ e, env.queryErr = some e → statisticsFromDBRun env = Except.error e) ∧
      (env.queryErr = none → env.hasRow = false →
        statisticsFromDBRun env = Except.error "No rows returned") ∧
      (∀ e, env.queryErr = none → env.hasRow = true → env.scanErr = some e →
        statisticsFromDBRun env = Except.error e)) ∧
    (∀ env : BasicEnv,
      (∀ e, env.createErr = some e →
        basicMain env
          = { exitCode := 1, printedValues := [],
              printedErrors := [e], ignoredErrors := env.openErr.toList,
              trace := ["open", "exec CREATE"] }) ∧
      (env.createErr = none →
        (basicMain env).exitCode = 1 ∧
          (basicMain env).printedErrors = [bindMismatchErr]) ∧
      (∀ e, env.openErr = some e →
        e ∈ (basicMain env).ignoredErrors ∧
          "exec CREATE" ∈ (basicMain env).trace)) := by
  constructor
  · intro env
    refine ⟨?_, ?_, ?_⟩
    · intro e he
      rw [statisticsFromDBRun, he]
    · intro hq hr
      rw [statisticsFromDBRun, hq, hr]
      rfl
    · intro e hq hr hs
      rw [statisticsFromDBRun, hq, hr, hs]
      rfl
  · intro env
    refine ⟨?_, ?_, ?_⟩
    · intro e he
      exact basicMain_createFail env e he
    · intro h
      rw [basicMain_createOk env h]
      exact ⟨rfl, rfl⟩
    · intro e he
      rcases hc : env.createErr with _ | c
      · rw [basicMain_createOk env hc, he]
        exact ⟨by simp, by simp⟩
      · rw [basicMain_createFail env c hc, he]
        exact ⟨by simp, by simp⟩

theorem claim_C3_amended_witness :
    statisticsFromDBRun ⟨some "q", true, none, ⟨0, 0, 0, 0, 0⟩⟩
      = Except.error "q" ∧
    basicMain ⟨some "o", some "c", fun _ => none, none, fun _ => none⟩
      = { exitCode := 1, printedValues := [], printedErrors := ["c"],
          ignoredErrors := ["o"], trace := ["open", "exec CREATE"] } :=
  ⟨(claim_C3_amended.1 ⟨some "q", true, none, ⟨0, 0, 0, 0, 0⟩⟩).1 "q" rfl,
    (claim_C3_amended.2
      ⟨some "o", some "c", fun _ => none, none, fun _ => none⟩).1 "c" rfl⟩

/-- C1 (code defect): on a records table holding the values {1, 2} the
aggregate row is (avg 3/2, median 3/2, stddev_pop 1/2, min 1, max 2), and the
scan of `StatisticsFromDB` returns 2 as its fourth component and 1 as its
fifth — the MIN and MAX columns land in the swapped variables — while
`StatisticsFromRecords` on the same dataset has min 1 and max 2, so the
database-computed and in-memory results disagree far beyond rounding
tolerance. -/
theorem claim_C1 :
    ((1 : ℚ) / 2) * ((1 : ℚ) / 2)
        = (statisticsFromRecordsCore [⟨1, 1⟩, ⟨2, 2⟩]).stddevSq ∧
    (statisticsFromDBScan (duckAggRow [1, 2] (1 / 2))).2.2.2.1 = 2 ∧
    (statisticsFromDBScan (duckAggRow [1, 2] (1 / 2))).2.2.2.2 = 1 ∧
    (statisticsFromRecordsCore [⟨1, 1⟩, ⟨2, 2⟩]).min = ((1 : ℚ) : WithTop ℚ) ∧
    (statisticsFromRecordsCore [⟨1, 1⟩, ⟨2, 2⟩]).max = ((2 : ℚ) : WithBot ℚ) := by
  refine ⟨?_, ?_, ?_, by decide, by decide⟩ <;>
    norm_num [statisticsFromRecordsCore, statsLoop, loopStep, initAcc, sortValues,
      List.insertionSort, List.orderedInsert, statisticsFromDBScan, duckAggRow]

end DuckDBGo
